import Mathlib

/-!
Verification of the beam-statics core of `tsc-ul-structural-check`.

The Python sources `beam_analysis.py` and `tsc_ul_design.py` are embedded
shallowly over `ℚ` (the repository works with Python floats; all the
formulas are rational, so exact rational arithmetic is the faithful
idealisation).  A Python `ZeroDivisionError` is modelled by `Option`
(`none`) for the leaf solver functions and by an explicit error value for
`module2_construction_load_check`.
-/

namespace TscUl

/-- Result record of `fixed_fixed_point_load` (beam_analysis.py, lines 5-33):
the dict with keys `M_A`, `M_B`, `M_F`, `R_A`, `R_B`. -/
structure FixedFixedPointResult where
  M_A : ℚ
  M_B : ℚ
  M_F : ℚ
  R_A : ℚ
  R_B : ℚ
  deriving DecidableEq, Repr

/-- Result record of `fixed_fixed_uniform_load` (beam_analysis.py, lines 36-60). -/
structure FixedFixedUniformResult where
  M_A : ℚ
  M_B : ℚ
  M_center : ℚ
  R_A : ℚ
  R_B : ℚ
  deriving DecidableEq, Repr

/-- Result record of `pinned_pinned_point_load` (beam_analysis.py, lines 63-85). -/
structure PinnedPinnedPointResult where
  M_F : ℚ
  R_A : ℚ
  R_B : ℚ
  deriving DecidableEq, Repr

/-- Result record of `pinned_pinned_uniform_load` (beam_analysis.py, lines 88-108). -/
structure PinnedPinnedUniformResult where
  M_center : ℚ
  R_A : ℚ
  R_B : ℚ
  deriving DecidableEq, Repr

/-- Result record of `fixed_fixed_two_point_load` (beam_analysis.py, lines 258-307). -/
structure TwoPointLoadResult where
  M_A : ℚ
  M_B : ℚ
  M_pos_max : ℚ
  R_A : ℚ
  R_B : ℚ
  deriving DecidableEq, Repr

/-- `fixed_fixed_point_load(F, a, L)` (beam_analysis.py, lines 5-33).
`none` models the Python `ZeroDivisionError` raised when `L = 0`;
for every other `L` (including negative spans) the function just
computes the closed-form values, with no validation. -/
def fixed_fixed_point_load (F a L : ℚ) : Option FixedFixedPointResult :=
  if L = 0 then none else
  let b := L - a
  some {
    M_A := -F * a * b ^ 2 / L ^ 2
    M_B := -F * a ^ 2 * b / L ^ 2
    M_F := 2 * F * a ^ 2 * b ^ 2 / L ^ 3
    R_A := F * (3 * a + b) * b ^ 2 / L ^ 3
    R_B := F * (a + 3 * b) * a ^ 2 / L ^ 3 }

/-- `fixed_fixed_uniform_load(q, L)` (beam_analysis.py, lines 36-60).
No division by `L`, hence total. -/
def fixed_fixed_uniform_load (q L : ℚ) : FixedFixedUniformResult :=
  let M_A := -q * L ^ 2 / 12
  { M_A := M_A
    M_B := M_A
    M_center := q * L ^ 2 / 24
    R_A := q * L / 2
    R_B := q * L / 2 }

/-- `pinned_pinned_point_load(F, a, L)` (beam_analysis.py, lines 63-85).
`none` models the `ZeroDivisionError` at `L = 0`; no other validation. -/
def pinned_pinned_point_load (F a L : ℚ) : Option PinnedPinnedPointResult :=
  if L = 0 then none else
  let b := L - a
  some {
    M_F := F * a * b / L
    R_A := F * b / L
    R_B := F * a / L }

/-- `pinned_pinned_uniform_load(q, L)` (beam_analysis.py, lines 88-108). -/
def pinned_pinned_uniform_load (q L : ℚ) : PinnedPinnedUniformResult :=
  { M_center := q * L ^ 2 / 8
    R_A := q * L / 2
    R_B := q * L / 2 }

/-- `fixed_fixed_two_point_load(F, L)` (beam_analysis.py, lines 258-307):
superposes two `fixed_fixed_point_load` calls at `a1 = L/3`, `a2 = 2L/3`
and computes `M_pos_max` exactly as in lines 298-299 of the source —
both summands use the right-branch expression
`M_F + (R_A - F) * (L/2 - a_i)`, for the second load as well. -/
def fixed_fixed_two_point_load (F L : ℚ) : Option TwoPointLoadResult :=
  let a1 := L / 3
  let a2 := 2 * L / 3
  (fixed_fixed_point_load F a1 L).bind fun r1 =>
  (fixed_fixed_point_load F a2 L).map fun r2 =>
  { M_A := r1.M_A + r2.M_A
    M_B := r1.M_B + r2.M_B
    M_pos_max := (r1.M_F + (r1.R_A - F) * (L / 2 - a1)) +
                 (r2.M_F + (r2.R_A - F) * (L / 2 - a2))
    R_A := r1.R_A + r2.R_A
    R_B := r1.R_B + r2.R_B }

/-- Piecewise bending moment of a single point load at one position `x`,
exactly the `np.where` expression of `plot_fixed_fixed_superposed_bmd`
(beam_analysis.py, lines 205-207): left branch `M_A + R_A*x` for `x ≤ a`,
right branch `M_F + (R_A - F)*(x - a)` for `x > a`. -/
def M_single (F a L x : ℚ) : Option ℚ :=
  (fixed_fixed_point_load F a L).map fun r =>
    if x ≤ a then r.M_A + r.R_A * x else r.M_F + (r.R_A - F) * (x - a)

/-- `np.linspace(lo, hi, num)`: `num` evenly spaced points including both
endpoints (step `(hi - lo)/(num - 1)`). -/
def linspace (lo hi : ℚ) (num : ℕ) : List ℚ :=
  (List.range num).map fun i : ℕ => lo + (hi - lo) * (i : ℚ) / ((num : ℚ) - 1)

/-- Sample positions `x_full` of `plot_fixed_fixed_point_bmd`
(beam_analysis.py, lines 138-141 and 149):
`x_left = linspace(0, a, num//2 + 1)`, `x_right = linspace(a, L, num//2 + 1)`,
`x_full = concatenate([x_left, x_right[1:]])`. -/
def point_bmd_xs (a L : ℚ) (num : ℕ) : List ℚ :=
  let k := num / 2 + 1
  linspace 0 a k ++ (linspace a L k).drop 1

/-- Sample positions of `plot_fixed_fixed_superposed_bmd`
(beam_analysis.py, line 201): the common grid `np.linspace(0, L, num_points)`,
used as-is for both loads, with no insertion of the load positions. -/
def superposed_bmd_xs (L : ℚ) (num : ℕ) : List ℚ :=
  linspace 0 L num

/-- The extrema finder of `plot_fixed_fixed_superposed_bmd`
(beam_analysis.py, lines 218-220):
`positive_M = M_total[M_total > 0]`,
`max_positive_M = np.max(positive_M) if len(positive_M) > 0 else 0`.
It consumes only the list of sampled moment values; positions never
enter the computation and no position is part of the output. -/
def max_positive_M (Ms : List ℚ) : ℚ :=
  match Ms.filter (fun m => decide (0 < m)) with
  | [] => 0
  | m :: rest => rest.foldl max m

/-- Modelled from the spec (section 4.4 ExtremaFinder), for comparison with
the code's `max_positive_M`: "given a MomentField, return the maximum value
among samples with M > 0 (sagging) together with its x; if no sample is
positive, return a defined no-positive-moment result (zero magnitude, no
location)". -/
def extrema_finder_spec (field : List (ℚ × ℚ)) : ℚ × Option ℚ :=
  match field.filter (fun s => decide (0 < s.2)) with
  | [] => (0, none)
  | s :: rest =>
    let best := rest.foldl (fun b t => if b.2 < t.2 then t else b) s
    (best.2, some best.1)

/-- The numeric and geometric fields of the `DesignInputs` dataclass
(tsc_ul_design.py, lines 6-30) used by `module2_construction_load_check`.
The angle/L-form section properties are never read by module 2 and are
omitted. -/
structure DesignInputs where
  x_span : ℚ
  y_span : ℚ
  slab_thickness : ℚ
  construction_live_load : ℚ
  concrete_density : ℚ
  num_y_girders : ℤ
  x_support_condition : String
  y_support_condition : String
  deriving DecidableEq, Repr

/-- Errors `module2_construction_load_check` can raise.
`zeroDivision` models Python's `ZeroDivisionError`;
`invalidYSupport` models the `ValueError` at tsc_ul_design.py line 81,
whose message names both valid values
(y_support_condition must be pinned or fixed);
`invalidXSupport got` models the `ValueError` at lines 107/125, whose
message (Invalid support: got) echoes only the offending value. -/
inductive Module2Error where
  | zeroDivision
  | invalidYSupport
  | invalidXSupport (got : String)
  deriving DecidableEq, Repr

/-- The result dict of `module2_construction_load_check`
(tsc_ul_design.py, lines 140-165). -/
structure Module2Result where
  y_bending_ok : Bool
  y_shear_ok : Bool
  y_required_mu : ℚ
  y_capacity_mn : ℚ
  y_required_vu : ℚ
  y_capacity_vn : ℚ
  x_bending_ok : Bool
  x_shear_ok : Bool
  x_required_mu : ℚ
  x_capacity_mn : ℚ
  x_required_vu : ℚ
  x_capacity_vn : ℚ
  tributary_width_y : ℚ
  w_y_dl : ℚ
  w_y_ll : ℚ
  w_y_total : ℚ
  point_load_p : ℚ
  num_y_girders : ℤ
  x_point_positions : List ℚ
  y_support_condition : String
  x_support_condition : String
  deriving DecidableEq, Repr

/-- y-direction demand dispatch of `module2_construction_load_check`
(tsc_ul_design.py, lines 69-81): returns `(mu_y, vu_y)`.
Under `pinned`, `mu_y = M_center`, `vu_y = R_A`; under `fixed`, the code
keeps only the positive midspan moment (`mu_y = M_center`); any other
string raises the `ValueError` naming the two valid values. -/
def module2_y_demand (cond : String) (w l : ℚ) :
    Except Module2Error (ℚ × ℚ) :=
  if cond = "pinned" then
    let r := pinned_pinned_uniform_load w l
    .ok (r.M_center, r.R_A)
  else if cond = "fixed" then
    let r := fixed_fixed_uniform_load w l
    .ok (r.M_center, r.R_A)
  else .error .invalidYSupport

/-- x-direction demand dispatch of `module2_construction_load_check`
(tsc_ul_design.py, lines 89-129): returns `(mu_x, vu_x)`.
`n = 1`: single point load at `l_x/2`; `n = 2`: loads at `l_x/3` and
`2*l_x/3` (pinned sums the two per-load `M_F`s; fixed takes `M_pos_max`
from `fixed_fixed_two_point_load`); any other `n` only prints a warning
and falls through to the placeholder `mu_x = vu_x = 0.0`. -/
def module2_x_demand (cond : String) (n : ℤ) (p lx : ℚ) :
    Except Module2Error (ℚ × ℚ) :=
  if n = 1 then
    if cond = "pinned" then
      match pinned_pinned_point_load p (lx / 2) lx with
      | none => .error .zeroDivision
      | some r => .ok (r.M_F, r.R_A)
    else if cond = "fixed" then
      match fixed_fixed_point_load p (lx / 2) lx with
      | none => .error .zeroDivision
      | some r => .ok (r.M_F, r.R_A)
    else .error (.invalidXSupport cond)
  else if n = 2 then
    if cond = "pinned" then
      match pinned_pinned_point_load p (lx / 3) lx,
            pinned_pinned_point_load p (2 * lx / 3) lx with
      | some r1, some r2 => .ok (r1.M_F + r2.M_F, r1.R_A + r2.R_A)
      | _, _ => .error .zeroDivision
    else if cond = "fixed" then
      match fixed_fixed_two_point_load p lx with
      | none => .error .zeroDivision
      | some r => .ok (r.M_pos_max, r.R_A)
    else .error (.invalidXSupport cond)
  else .ok (0, 0)

/-- `TSCULDesign.module2_construction_load_check`
(tsc_ul_design.py, lines 48-167).  Tributary width uses `x_span`
(line 60, as written in the source, despite the comment mentioning
`y_span`); `w_y = 1.2*DL + 1.6*LL`; the point load is `p = w_y * y_span`;
capacities are the hard-coded placeholders `0.0` (lines 133-136) and each
verdict is `demand <= capacity`.  `num_y_girders = -1` makes line 60
divide by zero before any dispatch happens. -/
def module2_construction_load_check (inp : DesignInputs) :
    Except Module2Error Module2Result :=
  if inp.num_y_girders + 1 = 0 then .error .zeroDivision else
  let n := inp.num_y_girders
  let tributary_width_y := inp.x_span / ((n : ℚ) + 1)
  let dl_y := inp.slab_thickness * inp.concrete_density * tributary_width_y
  let ll_y := inp.construction_live_load * tributary_width_y
  let w_y := 1.2 * dl_y + 1.6 * ll_y
  let l_y := inp.y_span
  match module2_y_demand inp.y_support_condition w_y l_y with
  | .error e => .error e
  | .ok (mu_y, vu_y) =>
    let p := w_y * inp.y_span
    let l_x := inp.x_span
    match module2_x_demand inp.x_support_condition n p l_x with
    | .error e => .error e
    | .ok (mu_x, vu_x) =>
      .ok {
        y_bending_ok := decide (mu_y ≤ 0)
        y_shear_ok := decide (vu_y ≤ 0)
        y_required_mu := mu_y
        y_capacity_mn := 0
        y_required_vu := vu_y
        y_capacity_vn := 0
        x_bending_ok := decide (mu_x ≤ 0)
        x_shear_ok := decide (vu_x ≤ 0)
        x_required_mu := mu_x
        x_capacity_mn := 0
        x_required_vu := vu_x
        x_capacity_vn := 0
        tributary_width_y := tributary_width_y
        w_y_dl := dl_y
        w_y_ll := ll_y
        w_y_total := w_y
        point_load_p := p
        num_y_girders := n
        x_point_positions := if n = 1 then [l_x / 2] else [l_x / 3, 2 * l_x / 3]
        y_support_condition := inp.y_support_condition
        x_support_condition := inp.x_support_condition }

/-- An initial accumulator is below a `foldl max` over it. -/
theorem foldl_max_init_le (l : List ℚ) (a : ℚ) : a ≤ l.foldl max a := by
  induction l generalizing a with
  | nil => simp
  | cons x t ih => exact le_trans (le_max_left a x) (ih (max a x))

/-- Every member of the list is below a `foldl max` over it. -/
theorem foldl_max_le (l : List ℚ) : ∀ a m, m ∈ l → m ≤ l.foldl max a := by
  induction l with
  | nil => intro a m hm; cases hm
  | cons x t ih =>
    intro a m hm
    simp only [List.foldl_cons]
    rcases List.mem_cons.mp hm with rfl | h
    · exact le_trans (le_max_right a m) (foldl_max_init_le t (max a m))
    · exact ih (max a x) m h

/-- A `foldl max` over a list is the accumulator or one of the members. -/
theorem foldl_max_mem (l : List ℚ) : ∀ a, l.foldl max a ∈ a :: l := by
  induction l with
  | nil => intro a; simp
  | cons x t ih =>
    intro a
    simp only [List.foldl_cons]
    rcases List.mem_cons.mp (ih (max a x)) with heq | hmem
    · rcases max_choice a x with h1 | h1
      · rw [heq, h1]; exact List.mem_cons_self _ _
      · rw [heq, h1]; exact List.mem_cons_of_mem _ (List.mem_cons_self _ _)
    · exact List.mem_cons_of_mem _ (List.mem_cons_of_mem _ hmem)

/-- C3: for every valid solver input (`L > 0`, `0 ≤ a ≤ L`), the returned
reactions satisfy `R_A + R_B` = total applied load: `F` for a point load
under either support condition, `q·L` for a uniform load under either
support condition.  Over `ℚ` the identity is exact. -/
theorem C3_equilibrium (F a q L : ℚ) (hL : 0 < L) (h0 : 0 ≤ a) (haL : a ≤ L) :
    (∀ r, fixed_fixed_point_load F a L = some r → r.R_A + r.R_B = F) ∧
    (∀ r, pinned_pinned_point_load F a L = some r → r.R_A + r.R_B = F) ∧
    (fixed_fixed_uniform_load q L).R_A + (fixed_fixed_uniform_load q L).R_B = q * L ∧
    (pinned_pinned_uniform_load q L).R_A + (pinned_pinned_uniform_load q L).R_B = q * L := by
  have hL' : L ≠ 0 := ne_of_gt hL
  refine ⟨?_, ?_, ?_, ?_⟩
  · intro r hr
    simp only [fixed_fixed_point_load, if_neg hL', Option.some.injEq] at hr
    subst hr
    dsimp only
    field_simp
    ring
  · intro r hr
    simp only [pinned_pinned_point_load, if_neg hL', Option.some.injEq] at hr
    subst hr
    dsimp only
    field_simp
    ring
  · simp only [fixed_fixed_uniform_load]
    ring
  · simp only [pinned_pinned_uniform_load]
    ring

/-- Witness for C3 at `F = 1, a = 1, q = 1, L = 2`. -/
theorem C3_equilibrium_witness :
    (0:ℚ) < 2 ∧ (0:ℚ) ≤ 1 ∧ (1:ℚ) ≤ 2 ∧
    fixed_fixed_point_load 1 1 2 = some ⟨-1/4, -1/4, 1/4, 1/2, 1/2⟩ ∧
    ((1:ℚ)/2) + 1/2 = 1 := by
  refine ⟨by norm_num, by norm_num, by norm_num, by norm_num [fixed_fixed_point_load], ?_⟩
  have h := (C3_equilibrium 1 1 1 2 (by norm_num) (by norm_num) (by norm_num)).1
    ⟨-1/4, -1/4, 1/4, 1/2, 1/2⟩ (by norm_num [fixed_fixed_point_load])
  simpa using h

/-- C4: for a single point load (`L > 0`, `0 ≤ a ≤ L`), under either
support condition, the piecewise moment function is continuous at the
breakpoint `x = a`: the left-branch value `M_A + R_A·a` equals the
right-branch value `M_F + (R_A − F)·(a − a) = M_F` (with `M_A = 0` in the
pinned case). -/
theorem C4_continuity_at_load (F a L : ℚ) (hL : 0 < L) (h0 : 0 ≤ a) (haL : a ≤ L) :
    (∀ r, fixed_fixed_point_load F a L = some r →
      r.M_A + r.R_A * a = r.M_F + (r.R_A - F) * (a - a)) ∧
    (∀ r, pinned_pinned_point_load F a L = some r →
      0 + r.R_A * a = r.M_F + (r.R_A - F) * (a - a)) := by
  have hL' : L ≠ 0 := ne_of_gt hL
  constructor
  · intro r hr
    simp only [fixed_fixed_point_load, if_neg hL', Option.some.injEq] at hr
    subst hr
    dsimp only
    field_simp
    ring
  · intro r hr
    simp only [pinned_pinned_point_load, if_neg hL', Option.some.injEq] at hr
    subst hr
    dsimp only
    field_simp
    ring

/-- Witness for C4 at `F = 1, a = 1, L = 2`: left value
`M_A + R_A·a = -1/4 + 1/2 = 1/4 = M_F`. -/
theorem C4_continuity_at_load_witness :
    (0:ℚ) < 2 ∧ (0:ℚ) ≤ 1 ∧ (1:ℚ) ≤ 2 ∧
    (-1/4 + (1/2) * 1 : ℚ) = 1/4 + (1/2 - 1) * (1 - 1) := by
  refine ⟨by norm_num, by norm_num, by norm_num, ?_⟩
  have h := (C4_continuity_at_load 1 1 2 (by norm_num) (by norm_num) (by norm_num)).1
    ⟨-1/4, -1/4, 1/4, 1/2, 1/2⟩ (by norm_num [fixed_fixed_point_load])
  simpa using h

/-- C7: a point load directly over a support (`a = 0` or `a = L`, `L > 0`)
is accepted by both solvers and yields zero span and end moments, the
whole load as the reaction at the coincident support, and zero at the far
support. -/
theorem C7_degenerate_load_position (F L : ℚ) (hL : 0 < L) :
    fixed_fixed_point_load F 0 L = some ⟨0, 0, 0, F, 0⟩ ∧
    fixed_fixed_point_load F L L = some ⟨0, 0, 0, 0, F⟩ ∧
    pinned_pinned_point_load F 0 L = some ⟨0, F, 0⟩ ∧
    pinned_pinned_point_load F L L = some ⟨0, 0, F⟩ := by
  have hL' : L ≠ 0 := ne_of_gt hL
  refine ⟨?_, ?_, ?_, ?_⟩
  · simp only [fixed_fixed_point_load, if_neg hL', Option.some.injEq,
      FixedFixedPointResult.mk.injEq]
    refine ⟨by ring, by ring, by ring, ?_, by ring⟩
    field_simp
    ring
  · simp only [fixed_fixed_point_load, if_neg hL', Option.some.injEq,
      FixedFixedPointResult.mk.injEq]
    refine ⟨by ring, by ring, by ring, by ring, ?_⟩
    field_simp
    ring
  · simp only [pinned_pinned_point_load, if_neg hL', Option.some.injEq,
      PinnedPinnedPointResult.mk.injEq]
    refine ⟨by ring, ?_, by ring⟩
    field_simp
  · simp only [pinned_pinned_point_load, if_neg hL', Option.some.injEq,
      PinnedPinnedPointResult.mk.injEq]
    refine ⟨by ring, by ring, ?_⟩
    field_simp

/-- Witness for C7 at `F = 5, L = 3`. -/
theorem C7_degenerate_load_position_witness :
    (0:ℚ) < 3 ∧ fixed_fixed_point_load 5 0 3 = some ⟨0, 0, 0, 5, 0⟩ ∧
    pinned_pinned_point_load 5 3 3 = some ⟨0, 0, 5⟩ :=
  ⟨by norm_num, (C7_degenerate_load_position 5 3 (by norm_num)).1,
    (C7_degenerate_load_position 5 3 (by norm_num)).2.2.2⟩

/-- C8: a point load at midspan (`a = L/2`) under the fixed condition gives
`M_A = M_B` and `R_A = R_B`; uniform loads give `R_A = R_B` under either
support condition. -/
theorem C8_symmetry (F q L : ℚ) (hL : 0 < L) :
    (∀ r, fixed_fixed_point_load F (L / 2) L = some r →
      r.M_A = r.M_B ∧ r.R_A = r.R_B) ∧
    (fixed_fixed_uniform_load q L).R_A = (fixed_fixed_uniform_load q L).R_B ∧
    (pinned_pinned_uniform_load q L).R_A = (pinned_pinned_uniform_load q L).R_B := by
  have hL' : L ≠ 0 := ne_of_gt hL
  refine ⟨?_, rfl, rfl⟩
  intro r hr
  simp only [fixed_fixed_point_load, if_neg hL', Option.some.injEq] at hr
  subst hr
  constructor
  · dsimp only
    ring
  · dsimp only
    ring

/-- Witness for C8 at `F = 1, L = 2` (load at `a = L/2 = 1`) and `q = 1`. -/
theorem C8_symmetry_witness :
    (0:ℚ) < 2 ∧ fixed_fixed_point_load 1 (2 / 2) 2 = some ⟨-1/4, -1/4, 1/4, 1/2, 1/2⟩ ∧
    ((⟨-1/4, -1/4, 1/4, 1/2, 1/2⟩ : FixedFixedPointResult).M_A =
      (⟨-1/4, -1/4, 1/4, 1/2, 1/2⟩ : FixedFixedPointResult).M_B) ∧
    (fixed_fixed_uniform_load 1 2).R_A = (fixed_fixed_uniform_load 1 2).R_B :=
  ⟨by norm_num, by norm_num [fixed_fixed_point_load],
    ((C8_symmetry 1 1 2 (by norm_num)).1 _ (by norm_num [fixed_fixed_point_load])).1,
    (C8_symmetry 1 1 2 (by norm_num)).2.1⟩

/-- C1: evaluation of `fixed_fixed_two_point_load` at the documented
scenario `F = 10, L = 6` (loads at `L/3 = 2` and `2L/3 = 4`).  The
aggregate end moment is `M_A = -40/3 ≈ -13.33` as the claim says, but the
reported `M_pos_max` is `50/3 ≈ 16.67`, not the claimed midspan value
`F·L/9 = 20/3 ≈ 6.67`: lines 298-299 of the source apply load 2's
right-branch expression at `x = L/2` even though `L/2 < a2`.  Evaluating
the aggregate piecewise moment field (the `np.where` formula, `M_single`)
at `x = L/2 = 3` gives the correct `20/3`, confirming the claim is what
the code's own comments (lines 296-297 and 311-313) intend. -/
theorem C1_two_point_midspan_bug :
    (fixed_fixed_two_point_load 10 6).map (fun r => (r.M_A, r.M_pos_max)) =
      some (-40/3, 50/3) ∧
    ((M_single 10 2 6 3).bind fun m1 => (M_single 10 4 6 3).map fun m2 => m1 + m2) =
      some (20/3) ∧
    (10 * 6 / 9 : ℚ) = 20/3 ∧ ((50:ℚ)/3 ≠ 20/3) := by
  refine ⟨?_, ?_, by norm_num, by norm_num⟩
  · norm_num [fixed_fixed_two_point_load, fixed_fixed_point_load]
  · norm_num [M_single, fixed_fixed_point_load]

/-- C2 counterexample: the reaction solvers perform no input validation.
With span `L = -1 ≤ 0`, `fixed_fixed_point_load` returns an ordinary
numeric result instead of failing with an `InvalidSpan` error, and with
`a = 5` outside `[0, L] = [0, 2]`, `pinned_pinned_point_load` returns an
ordinary numeric result instead of an `OutOfRange` error. -/
theorem C2_no_validation_counterexample :
    fixed_fixed_point_load 1 0 (-1) = some ⟨0, 0, 0, 1, 0⟩ ∧
    pinned_pinned_point_load 1 5 2 = some ⟨-15/2, -3/2, 5/2⟩ := by
  constructor
  · norm_num [fixed_fixed_point_load]
  · norm_num [pinned_pinned_point_load]

/-- C2 amended: the reaction solvers validate nothing — every `L ≠ 0`
(negative spans included) and every `a` (out of range included) yields a
numeric result; only `L = 0` fails, with a `ZeroDivisionError` rather
than an `InvalidSpan` error.  An unrecognized support condition is
rejected only at the dispatch inside `module2_construction_load_check`,
where the y-direction `ValueError` message names the two valid values. -/
theorem C2_no_validation (F a L : ℚ) (inp : DesignInputs) (hL : L ≠ 0)
    (hn : inp.num_y_girders ≠ -1)
    (hy1 : inp.y_support_condition ≠ "pinned")
    (hy2 : inp.y_support_condition ≠ "fixed") :
    (fixed_fixed_point_load F a L).isSome = true ∧
    (pinned_pinned_point_load F a L).isSome = true ∧
    fixed_fixed_point_load F a 0 = none ∧
    pinned_pinned_point_load F a 0 = none ∧
    module2_construction_load_check inp = .error .invalidYSupport := by
  have hn0 : ¬(inp.num_y_girders + 1 = 0) := by omega
  refine ⟨?_, ?_, ?_, ?_, ?_⟩
  · simp [fixed_fixed_point_load, hL]
  · simp [pinned_pinned_point_load, hL]
  · simp [fixed_fixed_point_load]
  · simp [pinned_pinned_point_load]
  · simp [module2_construction_load_check, module2_y_demand, hn0, hy1, hy2]

/-- Witness for C2 amended at `F = 1, a = 0, L = -1` and inputs with the
unrecognized y-support string. -/
theorem C2_no_validation_witness :
    (fixed_fixed_point_load 1 0 (-1)).isSome = true ∧
    module2_construction_load_check ⟨3, 2, 1, 1, 1, 2, "fixed", "weird"⟩ =
      .error .invalidYSupport :=
  ⟨(C2_no_validation 1 0 (-1) ⟨3, 2, 1, 1, 1, 2, "fixed", "weird"⟩
      (by norm_num) (by decide) (by decide) (by decide)).1,
   (C2_no_validation 1 0 (-1) ⟨3, 2, 1, 1, 1, 2, "fixed", "weird"⟩
      (by norm_num) (by decide) (by decide) (by decide)).2.2.2.2⟩

/-- C5 counterexample: `plot_fixed_fixed_superposed_bmd` discretizes the
moment field on the plain grid `np.linspace(0, L, num_points)`; with
`L = 6` and `num_points = 5` the grid is `[0, 3/2, 3, 9/2, 6]` and the
breakpoints `a1 = L/3 = 2` and `a2 = 2L/3 = 4` appear zero times, not
exactly once. -/
theorem C5_superposed_grid_misses_breakpoints :
    (superposed_bmd_xs 6 5).count 2 = 0 ∧ (superposed_bmd_xs 6 5).count 4 = 0 ∧
    ((6:ℚ)/3 = 2 ∧ (2*6/3 : ℚ) = 4) := by
  have h5 : List.range 5 = [0, 1, 2, 3, 4] := rfl
  refine ⟨?_, ?_, by norm_num, by norm_num⟩ <;>
    norm_num [superposed_bmd_xs, linspace, h5, List.count_cons]

/-- C5 amended: in `plot_fixed_fixed_point_bmd` (which splits the grid at
the load), the breakpoint `x = a` appears exactly once in the sample set
`x_full` whenever `0 < a < L` and `num_points ≥ 2`; the uniform grid used
by `plot_fixed_fixed_superposed_bmd` does not include the breakpoints in
general. -/
theorem C5_point_bmd_breakpoint_once (a L : ℚ) (num : ℕ)
    (ha : 0 < a) (haL : a < L) (hnum : 2 ≤ num) :
    (point_bmd_xs a L num).count a = 1 := by
  simp only [point_bmd_xs]
  set m := num / 2 with hmdef
  have hm : 1 ≤ m := by omega
  have hmQ0 : (0:ℚ) < (m:ℚ) := by exact_mod_cast hm
  have hmQ : (m:ℚ) ≠ 0 := ne_of_gt hmQ0
  have ha' : a ≠ 0 := ne_of_gt ha
  have cast1 : ((↑(m + 1) : ℚ) - 1) = (m : ℚ) := by push_cast; ring
  rw [List.count_append]
  have hlin1 : linspace 0 a (m + 1) =
      (List.range (m + 1)).map (fun i : ℕ => a * (i:ℚ) / (m:ℚ)) := by
    unfold linspace
    apply List.map_congr_left
    intro i _
    rw [cast1]
    ring
  have hlin2 : linspace a L (m + 1) =
      (List.range (m + 1)).map (fun i : ℕ => a + (L - a) * (i:ℚ) / (m:ℚ)) := by
    unfold linspace
    apply List.map_congr_left
    intro i _
    rw [cast1]
  have h1 : (linspace 0 a (m + 1)).count a = 1 := by
    rw [hlin1]
    have ham : a / (m:ℚ) ≠ 0 := div_ne_zero ha' hmQ
    have hinj : Function.Injective (fun i : ℕ => a * (i:ℚ) / (m:ℚ)) := by
      intro i j hij
      simp only at hij
      have h2 : (a / (m:ℚ)) * (i:ℚ) = (a / (m:ℚ)) * (j:ℚ) := by
        linear_combination hij
      have h3 := mul_left_cancel₀ ham h2
      exact_mod_cast h3
    have hfm : a * (m:ℚ) / (m:ℚ) = a := by field_simp
    have hc := List.count_map_of_injective (List.range (m + 1))
      (fun i : ℕ => a * (i:ℚ) / (m:ℚ)) hinj m
    simp only [hfm] at hc
    rw [hc]
    exact List.count_eq_one_of_mem (List.nodup_range _) (List.mem_range.mpr (by omega))
  have h2 : ((linspace a L (m + 1)).drop 1).count a = 0 := by
    rw [hlin2, List.range_succ_eq_map, List.map_cons]
    rw [List.drop_succ_cons, List.drop_zero, List.map_map]
    rw [List.count_eq_zero]
    intro hmem
    obtain ⟨i, hi, hEq⟩ := List.mem_map.mp hmem
    simp only [Function.comp, Nat.succ_eq_add_one] at hEq
    push_cast at hEq
    have hpos : 0 < (L - a) * ((i:ℚ) + 1) / (m:ℚ) := by
      apply div_pos
      · apply mul_pos (by linarith)
        positivity
      · exact hmQ0
    linarith [hEq, hpos]
  rw [h1, h2]

/-- Witness for C5 amended at `a = 2, L = 6, num_points = 4`:
`x_full = [0, 1, 2] ++ [4, 6]` contains the breakpoint `2` exactly once. -/
theorem C5_point_bmd_breakpoint_once_witness :
    (0:ℚ) < 2 ∧ (2:ℚ) < 6 ∧ 2 ≤ 4 ∧ (point_bmd_xs 2 6 4).count 2 = 1 :=
  ⟨by norm_num, by norm_num, by norm_num,
    C5_point_bmd_breakpoint_once 2 6 4 (by norm_num) (by norm_num) (by norm_num)⟩

/-- C6 counterexample: the code's extrema finder consumes only the list of
sampled moment values and returns a single scalar; it cannot be returning
the position of the maximum.  Two sampled fields with identical moment
values but different sample positions (maximum at `x = 1` versus `x = 2`)
give the code finder identical outputs, while the spec's
value-with-position contract distinguishes them. -/
theorem C6_position_not_reported :
    max_positive_M ([((0:ℚ), (5:ℚ)), (1, 8)].map Prod.snd) =
      max_positive_M ([((0:ℚ), (5:ℚ)), (2, 8)].map Prod.snd) ∧
    extrema_finder_spec [((0:ℚ), (5:ℚ)), (1, 8)] ≠
      extrema_finder_spec [((0:ℚ), (5:ℚ)), (2, 8)] := by
  norm_num [max_positive_M, extrema_finder_spec, List.filter]

/-- C6 amended: given the sampled moment values, the extrema finder
returns the maximum value among samples with `M > 0` (it is a sampled
value, positive, and dominates every sample), and when no sample is
positive it returns the defined result `0` rather than failing; it does
not report the position of the maximum. -/
theorem C6_extrema_max_positive (Ms : List ℚ) :
    ((∃ m ∈ Ms, 0 < m) →
      0 < max_positive_M Ms ∧ max_positive_M Ms ∈ Ms ∧
        ∀ m ∈ Ms, m ≤ max_positive_M Ms) ∧
    ((∀ m ∈ Ms, m ≤ 0) → max_positive_M Ms = 0) := by
  unfold max_positive_M
  cases hpos : Ms.filter (fun m => decide (0 < m)) with
  | nil =>
    constructor
    · rintro ⟨m, hm, h0⟩
      have hmem : m ∈ Ms.filter (fun m => decide (0 < m)) :=
        List.mem_filter.mpr ⟨hm, by simpa using h0⟩
      rw [hpos] at hmem
      cases hmem
    · intro _
      rfl
  | cons p rest =>
    have hsub : ∀ y, y ∈ p :: rest → y ∈ Ms ∧ 0 < y := by
      intro y hy
      have hmem : y ∈ Ms.filter (fun m => decide (0 < m)) := hpos ▸ hy
      have h2 := List.mem_filter.mp hmem
      exact ⟨h2.1, by simpa using h2.2⟩
    have hmax := hsub _ (foldl_max_mem rest p)
    constructor
    · intro _
      refine ⟨hmax.2, hmax.1, ?_⟩
      intro m hm
      by_cases h0 : 0 < m
      · have hmf : m ∈ p :: rest := by
          rw [← hpos]
          exact List.mem_filter.mpr ⟨hm, by simpa using h0⟩
        rcases List.mem_cons.mp hmf with rfl | hmr
        · exact foldl_max_init_le rest m
        · exact foldl_max_le rest p m hmr
      · exact le_trans (le_of_not_lt h0) (le_of_lt hmax.2)
    · intro hall
      exact absurd (hall p (hsub p (List.mem_cons_self _ _)).1)
        (not_le.mpr (hsub p (List.mem_cons_self _ _)).2)

/-- Witness for C6 amended on the field `[-1, 3, 2]` (one positive sample
exists). -/
theorem C6_extrema_max_positive_witness :
    0 < max_positive_M [-1, 3, 2] ∧ max_positive_M [-1, 3, 2] ∈ [(-1:ℚ), 3, 2] := by
  have h := (C6_extrema_max_positive [-1, 3, 2]).1
    ⟨3, by norm_num, by norm_num⟩
  exact ⟨h.1, h.2.1⟩

/-- C9: in `module2_construction_load_check` all four capacities are the
hard-coded placeholders `0.0`, so each verdict holds exactly when the
corresponding demand is `≤ 0`, and any strictly positive demand makes its
verdict `False`. -/
theorem C9_zero_capacity_verdicts (inp : DesignInputs) (r : Module2Result)
    (h : module2_construction_load_check inp = .ok r) :
    r.y_capacity_mn = 0 ∧ r.y_capacity_vn = 0 ∧
    r.x_capacity_mn = 0 ∧ r.x_capacity_vn = 0 ∧
    (r.y_bending_ok = true ↔ r.y_required_mu ≤ 0) ∧
    (r.y_shear_ok = true ↔ r.y_required_vu ≤ 0) ∧
    (r.x_bending_ok = true ↔ r.x_required_mu ≤ 0) ∧
    (r.x_shear_ok = true ↔ r.x_required_vu ≤ 0) ∧
    (0 < r.y_required_mu → r.y_bending_ok = false) ∧
    (0 < r.y_required_vu → r.y_shear_ok = false) ∧
    (0 < r.x_required_mu → r.x_bending_ok = false) ∧
    (0 < r.x_required_vu → r.x_shear_ok = false) := by
  simp only [module2_construction_load_check] at h
  split at h
  · exact absurd h (by simp)
  · split at h
    · exact absurd h (by simp)
    · split at h
      · exact absurd h (by simp)
      · rw [Except.ok.injEq] at h
        subst h
        refine ⟨rfl, rfl, rfl, rfl, by simp, by simp, by simp, by simp,
          ?_, ?_, ?_, ?_⟩ <;>
        · intro h0
          simpa using not_le.mpr h0

/-- Witness for C9 at inputs `x_span = 3, y_span = 2, t = 1, LL = 1,
density = 1, n = 2`, pinned in both directions: all four demands are
strictly positive and all four verdicts come out `False`. -/
theorem C9_zero_capacity_verdicts_witness :
    module2_construction_load_check ⟨3, 2, 1, 1, 1, 2, "pinned", "pinned"⟩ =
      .ok ⟨false, false, 7/5, 0, 14/5, 0, false, false, 112/15, 0, 28/5, 0,
           1, 1, 1, 14/5, 28/5, 2, [1, 2], "pinned", "pinned"⟩ ∧
    (false = true ↔ (7/5:ℚ) ≤ 0) := by
  have heval : module2_construction_load_check ⟨3, 2, 1, 1, 1, 2, "pinned", "pinned"⟩ =
      .ok ⟨false, false, 7/5, 0, 14/5, 0, false, false, 112/15, 0, 28/5, 0,
           1, 1, 1, 14/5, 28/5, 2, [1, 2], "pinned", "pinned"⟩ := by
    norm_num [module2_construction_load_check, module2_y_demand, module2_x_demand,
      pinned_pinned_uniform_load, pinned_pinned_point_load]
  exact ⟨heval, (C9_zero_capacity_verdicts _ _ heval).2.2.2.2.1⟩

/-- C10 counterexample: with `num_y_girders = -1` (a value outside `{1, 2}`)
and otherwise valid default inputs, `module2_construction_load_check` does
raise: line 60 divides `x_span` by `num_y_girders + 1 = 0`, a
`ZeroDivisionError`, before any dispatch. -/
theorem C10_neg_one_girders_raises :
    module2_construction_load_check ⟨10.8, 10.2, 0.2, 2.5, 24, -1, "fixed", "pinned"⟩ =
      .error .zeroDivision := by
  norm_num [module2_construction_load_check]

/-- C10 amended: for every `num_y_girders` outside `{1, 2}` other than
`-1`, with a recognized y-support condition,
`module2_construction_load_check` returns normally with the placeholder
x-direction demands `mu_x = vu_x = 0.0`, which makes the x verdicts `True`
against the zero capacities — the unsupported configuration is silently
defaulted rather than surfaced to the caller. -/
theorem C10_silent_default (inp : DesignInputs)
    (h1 : inp.num_y_girders ≠ 1) (h2 : inp.num_y_girders ≠ 2)
    (hneg : inp.num_y_girders ≠ -1)
    (hy : inp.y_support_condition = "pinned" ∨ inp.y_support_condition = "fixed") :
    (module2_construction_load_check inp).map
      (fun r => (r.x_required_mu, r.x_required_vu, r.x_bending_ok, r.x_shear_ok)) =
      .ok (0, 0, true, true) := by
  have hn0 : ¬(inp.num_y_girders + 1 = 0) := by omega
  rcases hy with hy | hy <;>
    simp [module2_construction_load_check, module2_y_demand, module2_x_demand,
      hy, h1, h2, hn0, Except.map]

/-- Witness for C10 amended at `num_y_girders = 3`. -/
theorem C10_silent_default_witness :
    (module2_construction_load_check ⟨3, 2, 1, 1, 1, 3, "pinned", "pinned"⟩).map
      (fun r => (r.x_required_mu, r.x_required_vu, r.x_bending_ok, r.x_shear_ok)) =
      .ok (0, 0, true, true) :=
  C10_silent_default ⟨3, 2, 1, 1, 1, 3, "pinned", "pinned"⟩
    (by decide) (by decide) (by decide) (Or.inl rfl)

end TscUl
